import Mathlib

/-!
Verification development for the Catenis API emulator.

The JavaScript sources are shallowly embedded: pure functions become Lean
functions over `String` / `List Nat` (bytes as naturals), JS objects become
structures or association lists, thrown exceptions become `Except`/`Option`
results, and the stateful WebSocket dispatch logic becomes explicit
state-passing functions.  External library primitives (node's SHA-256 and
HMAC-SHA-256, `JSON.parse`, URL parseability) are taken as function
parameters, since their code is not part of this repository.
-/

namespace CatenisEmu

/-! ### Bytes and lowercase hex encoding (crypto digest('hex')) -/

def hexDigitChar (n : Nat) : Char :=
  if n < 10 then Char.ofNat (48 + n) else Char.ofNat (87 + n)

def byteHexChars (b : Nat) : List Char :=
  [hexDigitChar (b / 16 % 16), hexDigitChar (b % 16)]

def hexLower (bs : List Nat) : String :=
  ⟨bs.flatMap byteHexChars⟩

/-- Bytes of a string (the sources only ever sign ASCII text, where UTF-8
bytes coincide with code points). -/
def strBytes (s : String) : List Nat :=
  s.data.map Char.toNat

/-! ### HTTP request model -/

structure HttpRequest where
  method : String
  url : String
  headers : List (String × String)
deriving DecidableEq

def lookupHeader (hs : List (String × String)) (name : String) : Option String :=
  match hs with
  | [] => none
  | (k, v) :: rest => if k = name then some v else lookupHeader rest name

/-- JS string coercion of a possibly-undefined header value
(`'host:' + req.headers.host` yields `host:undefined` when absent). -/
def jsHeaderValue : Option String → String
  | some v => v
  | none => "undefined"

/-! ### Signer constants (src/Authentication.js) -/

def signVersionId : String := "CTN1"

def signMethodId : String := "CTN1-HMAC-SHA256"

def scopeRequest : String := "ctn1_request"

def signValidDays : Int := 7

def allowedTimestampOffset : Int := 300

def timestampHdr : String := "x-bcot-timestamp"

def authHeaderName : String := "authorization"

/-! ### signHttpRequest (src/Authentication.js, lines 125-173)

`sha256 : List Nat → List Nat` and `hmacSHA256 : key → msg → digest` stand for
node's `crypto` primitives. -/

def hashData (sha256 : List Nat → List Nat) (data : List Nat) : String :=
  hexLower (sha256 data)

def signDataRaw (hmacSHA256 : List Nat → List Nat → List Nat)
    (data secret : List Nat) : List Nat :=
  hmacSHA256 secret data

def signDataHex (hmacSHA256 : List Nat → List Nat → List Nat)
    (data secret : List Nat) : String :=
  hexLower (hmacSHA256 secret data)

structure SignDataInfo where
  timestamp : String
  signDate : String
  apiAccessSecret : String
  reqBody : List Nat
deriving DecidableEq

/-- The `essentialHeaders` local of `signHttpRequest`: the `host:` line is
always written; the `x-bcot-timestamp:` line only when that header is
present on the request. -/
def essentialHeaders (req : HttpRequest) : String :=
  let base := "host:" ++ jsHeaderValue (lookupHeader req.headers "host") ++ "\n"
  match lookupHeader req.headers timestampHdr with
  | some ts => base ++ timestampHdr ++ ":" ++ ts ++ "\n"
  | none => base

def signHttpRequest (sha256 : List Nat → List Nat)
    (hmacSHA256 : List Nat → List Nat → List Nat)
    (req : HttpRequest) (info : SignDataInfo) : String :=
  let confReq := req.method ++ "\n" ++ req.url ++ "\n"
    ++ essentialHeaders req ++ "\n"
    ++ hashData sha256 info.reqBody ++ "\n"
  let scope := info.signDate ++ "/" ++ scopeRequest
  let strToSign := signMethodId ++ "\n" ++ info.timestamp ++ "\n"
    ++ scope ++ "\n" ++ hashData sha256 (strBytes confReq) ++ "\n"
  let dateKey := signDataRaw hmacSHA256 (strBytes info.signDate)
    (strBytes (signVersionId ++ info.apiAccessSecret))
  let signKey := signDataRaw hmacSHA256 (strBytes scopeRequest) dateKey
  signDataHex hmacSHA256 (strBytes strToSign) signKey

/-! ### Spec-side signature formula (for the refinement claim C1)

These definitions follow the specification's words in §4.1 (canonicalization
steps 1-4), with the essential-headers block containing both lines
unconditionally; they are compared against `signHttpRequest` above. -/

def specEssentialHeaders (host timestamp : String) : String :=
  "host:" ++ host ++ "\n" ++ "x-bcot-timestamp:" ++ timestamp ++ "\n"

def specConformedRequest (sha256 : List Nat → List Nat)
    (method url host timestamp : String) (body : List Nat) : String :=
  method ++ "\n" ++ url ++ "\n"
    ++ specEssentialHeaders host timestamp ++ "\n"
    ++ hexLower (sha256 body) ++ "\n"

def specStringToSign (sha256 : List Nat → List Nat)
    (method url host timestamp signDate : String) (body : List Nat) : String :=
  "CTN1-HMAC-SHA256" ++ "\n" ++ timestamp ++ "\n"
    ++ signDate ++ "/" ++ "ctn1_request" ++ "\n"
    ++ hexLower (sha256 (strBytes
        (specConformedRequest sha256 method url host timestamp body))) ++ "\n"

def specSignature (sha256 : List Nat → List Nat)
    (hmacSHA256 : List Nat → List Nat → List Nat)
    (method url host timestamp signDate apiAccessSecret : String)
    (body : List Nat) : String :=
  let dateKey := hmacSHA256 (strBytes ("CTN1" ++ apiAccessSecret)) (strBytes signDate)
  let signKey := hmacSHA256 dateKey (strBytes "ctn1_request")
  hexLower (hmacSHA256 signKey
    (strBytes (specStringToSign sha256 method url host timestamp signDate body)))

/-! ### Concrete inputs and dummy crypto primitives for closed evaluations -/

def shaId : List Nat → List Nat := fun bs => bs

def hmacConcat : List Nat → List Nat → List Nat := fun k m => k ++ m

def reqNoTimestampHdr : HttpRequest :=
  { method := "GET", url := "/api/0.13/messages", headers := [("host", "localhost")] }

def infoC1 : SignDataInfo :=
  { timestamp := "20230101T000000Z", signDate := "20230101",
    apiAccessSecret := "secret", reqBody := [] }

def reqC1 : HttpRequest :=
  { method := "POST", url := "/api/0.13/messages/log",
    headers := [("host", "localhost:3500"), ("x-bcot-timestamp", "20230101T120000Z")] }

def infoC1w : SignDataInfo :=
  { timestamp := "20230101T120000Z", signDate := "20230101",
    apiAccessSecret := "mySecret", reqBody := [123, 125] }

/-- C1 (amended): provided the request carries the `x-bcot-timestamp` header
holding the signing info's timestamp (and a `host` header), `signHttpRequest`
builds exactly the specification's conformed request (METHOD, raw URL, the
two essential-header lines in fixed order, hex(SHA-256(body)), each
newline-terminated) and returns the lowercase hex of
HMAC-SHA-256(signKey, string-to-sign), with
dateKey = HMAC("CTN1"+secret, signDate), signKey = HMAC(dateKey, "ctn1_request"). -/
theorem signHttpRequest_eq_specSignature
    (sha256 : List Nat → List Nat) (hmacSHA256 : List Nat → List Nat → List Nat)
    (req : HttpRequest) (info : SignDataInfo) (host : String)
    (hh : lookupHeader req.headers "host" = some host)
    (ht : lookupHeader req.headers timestampHdr = some info.timestamp) :
    signHttpRequest sha256 hmacSHA256 req info =
      specSignature sha256 hmacSHA256 req.method req.url host info.timestamp
        info.signDate info.apiAccessSecret info.reqBody := by
  have hcolon : ("x-bcot-timestamp" ++ ":" : String) = "x-bcot-timestamp:" := rfl
  unfold signHttpRequest specSignature specStringToSign specConformedRequest
    specEssentialHeaders essentialHeaders
  rw [hh, ht]
  simp only [jsHeaderValue, hashData, signDataRaw, signDataHex,
    signMethodId, signVersionId, scopeRequest, timestampHdr]
  rw [← hcolon]
  simp [String.append_assoc]

set_option maxRecDepth 8192 in
/-- C1 (counterexample to the claim as stated): for a request without the
`x-bcot-timestamp` header, the essential-headers block contains only the
`host:` line, and the produced signature differs from the claim's formula. -/
theorem signHttpRequest_missing_timestamp_line :
    essentialHeaders reqNoTimestampHdr = "host:localhost\n" ∧
    essentialHeaders reqNoTimestampHdr ≠ specEssentialHeaders "localhost" "20230101T000000Z" ∧
    signHttpRequest shaId hmacConcat reqNoTimestampHdr infoC1 ≠
      specSignature shaId hmacConcat "GET" "/api/0.13/messages" "localhost"
        "20230101T000000Z" "20230101" "secret" [] := by
  refine ⟨rfl, by decide, by decide⟩

/-- C1 witness: the amended theorem applied at a concrete request. -/
theorem signHttpRequest_eq_specSignature_witness :
    signHttpRequest shaId hmacConcat reqC1 infoC1w =
      specSignature shaId hmacConcat "POST" "/api/0.13/messages/log" "localhost:3500"
        "20230101T120000Z" "20230101" "mySecret" [123, 125] :=
  signHttpRequest_eq_specSignature shaId hmacConcat reqC1 infoC1w "localhost:3500" rfl rfl

/-! ### Calendar arithmetic

dayjs UTC instants are modelled as integer epoch seconds (the parsed
timestamps carry whole seconds and `now` has its milliseconds zeroed, so
instant comparisons happen at second granularity). -/

def isLeapYear (y : Int) : Bool :=
  y % 4 == 0 && (y % 100 != 0 || y % 400 == 0)

def daysInMonth (y m : Int) : Int :=
  if m = 2 then (if isLeapYear y then 29 else 28)
  else if m = 4 ∨ m = 6 ∨ m = 9 ∨ m = 11 then 30
  else 31

/-- Days between 1970-01-01 and the given civil date (Gregorian, proleptic). -/
def daysFromCivil (y m d : Int) : Int :=
  let y' := if m ≤ 2 then y - 1 else y
  let era := Int.fdiv y' 400
  let yoe := y' - era * 400
  let mp := (m + 9) % 12
  let doy := Int.fdiv (153 * mp + 2) 5 + d - 1
  let doe := yoe * 365 + Int.fdiv yoe 4 - Int.fdiv yoe 100 + doy
  era * 146097 + doe - 719468

def digitVal (c : Char) : Nat := c.toNat - 48

def digits2 (a b : Char) : Int :=
  Int.ofNat (10 * digitVal a + digitVal b)

def digits4 (a b c d : Char) : Int :=
  Int.ofNat (1000 * digitVal a + 100 * digitVal b + 10 * digitVal c + digitVal d)

/-- Strict parse of `YYYYMMDDTHHmmss[Z]` (dayjs.utc with strict flag): exact
length, literal `T` and `Z`, and a valid calendar date-time.  Returns the
epoch-second instant. -/
def parseTimestamp (s : String) : Option Int :=
  match s.data with
  | [y1, y2, y3, y4, mo1, mo2, d1, d2, tc, h1, h2, mi1, mi2, s1, s2, zc] =>
    if ([y1, y2, y3, y4, mo1, mo2, d1, d2, h1, h2, mi1, mi2, s1, s2].all Char.isDigit)
        && tc == 'T' && zc == 'Z' then
      let y := digits4 y1 y2 y3 y4
      let mo := digits2 mo1 mo2
      let d := digits2 d1 d2
      let h := digits2 h1 h2
      let mi := digits2 mi1 mi2
      let sec := digits2 s1 s2
      if 1 ≤ mo ∧ mo ≤ 12 ∧ 1 ≤ d ∧ d ≤ daysInMonth y mo
          ∧ h ≤ 23 ∧ mi ≤ 59 ∧ sec ≤ 59 then
        some (daysFromCivil y mo d * 86400 + h * 3600 + mi * 60 + sec)
      else none
    else none
  | _ => none

/-- Strict parse of `YYYYMMDD` (dayjs.utc with strict flag).  Returns the
epoch day. -/
def parseSignDate (s : String) : Option Int :=
  match s.data with
  | [y1, y2, y3, y4, mo1, mo2, d1, d2] =>
    if [y1, y2, y3, y4, mo1, mo2, d1, d2].all Char.isDigit then
      let y := digits4 y1 y2 y3 y4
      let mo := digits2 mo1 mo2
      let d := digits2 d1 d2
      if 1 ≤ mo ∧ mo ≤ 12 ∧ 1 ≤ d ∧ d ≤ daysInMonth y mo then
        some (daysFromCivil y mo d)
      else none
    else none
  | _ => none

/-- UTC calendar day of an epoch-second instant. -/
def utcDay (t : Int) : Int := Int.fdiv t 86400

/-! ### The authorization-header regular expression (src/Authentication.js line 22)

`^CTN1-HMAC-SHA256 +(?:C|c)redential *= *(\w{20})/(\d{8})/ctn1_request *, *(?:S|s)ignature *= *([0-9a-fA-F]{64}) *$`

embedded as a deterministic scanner (no alternative of the regex can
backtrack: every bounded class is followed by a character outside it). -/

def isWordChar (c : Char) : Bool :=
  c.isAlpha || c.isDigit || c == '_'

def isHexDigitChar (c : Char) : Bool :=
  c.isDigit || ('a' ≤ c && c ≤ 'f') || ('A' ≤ c && c ≤ 'F')

def dropLit : List Char → List Char → Option (List Char)
  | [], cs => some cs
  | _ :: _, [] => none
  | l :: ls, c :: cs => if c = l then dropLit ls cs else none

def dropSpaces : List Char → List Char
  | [] => []
  | c :: cs => if c = ' ' then dropSpaces cs else c :: cs

def dropSpaces1 : List Char → Option (List Char)
  | [] => none
  | c :: cs => if c = ' ' then some (dropSpaces cs) else none

def dropEitherChar (a b : Char) : List Char → Option (List Char)
  | [] => none
  | c :: cs => if c = a ∨ c = b then some cs else none

def takeCount (p : Char → Bool) : Nat → List Char → Option (List Char × List Char)
  | 0, cs => some ([], cs)
  | _ + 1, [] => none
  | n + 1, c :: cs =>
    if p c then (takeCount p n cs).map (fun pr => (c :: pr.1, pr.2)) else none

/-- `^CTN1-HMAC-SHA256 +(?:C|c)redential *= *`. -/
def matchAuthStart (cs0 : List Char) : Option (List Char) :=
  (dropLit signMethodId.data cs0).bind fun a1 =>
  (dropSpaces1 a1).bind fun a2 =>
  (dropEitherChar 'C' 'c' a2).bind fun a3 =>
  (dropLit "redential".data a3).bind fun a4 =>
  dropLit ['='] (dropSpaces a4)

/-- `(\w{20})/(\d{8})/ctn1_request`, yielding the two captures and the rest. -/
def matchAuthCredentialValue (cs : List Char) : Option (List Char × List Char × List Char) :=
  (takeCount isWordChar 20 cs).bind fun dev =>
  (dropLit ['/'] dev.2).bind fun a1 =>
  (takeCount Char.isDigit 8 a1).bind fun date =>
  (dropLit ('/' :: scopeRequest.data) date.2).bind fun a2 =>
  some (dev.1, date.1, a2)

/-- ` *, *(?:S|s)ignature *= *`. -/
def matchAuthSignatureKeyword (cs : List Char) : Option (List Char) :=
  (dropLit [','] (dropSpaces cs)).bind fun a1 =>
  (dropEitherChar 'S' 's' (dropSpaces a1)).bind fun a2 =>
  (dropLit "ignature".data a2).bind fun a3 =>
  dropLit ['='] (dropSpaces a3)

/-- `([0-9a-fA-F]{64}) *$`, yielding the capture. -/
def matchAuthHexValue (cs : List Char) : Option (List Char) :=
  (takeCount isHexDigitChar 64 cs).bind fun sig =>
  if (dropSpaces sig.2).isEmpty then some sig.1 else none

def matchAuthChars (cs0 : List Char) : Option (String × String × String) :=
  (matchAuthStart cs0).bind fun b1 =>
  (matchAuthCredentialValue (dropSpaces b1)).bind fun cred =>
  (matchAuthSignatureKeyword cred.2.2).bind fun b2 =>
  (matchAuthHexValue (dropSpaces b2)).bind fun sig =>
  some (String.mk cred.1, String.mk cred.2.1, String.mk sig)

def matchAuthHeader (s : String) : Option (String × String × String) :=
  matchAuthChars s.data

/-! ### parseHttpRequestAuthentication (src/Authentication.js, lines 50-109) -/

inductive AuthError where
  | missing_headers
  | malformed_timestamp
  | timestamp_out_of_bounds
  | malformed_auth_header
  | malformed_sign_date
  | sign_date_out_of_bounds
deriving DecidableEq

structure ParsedAuthData where
  timestamp : String
  deviceId : String
  signDate : String
  signature : String
deriving DecidableEq

/-- The parse pipeline, with the current wall clock passed explicitly as
`now` (epoch seconds, milliseconds already zeroed). -/
def parseHttpRequestAuthentication (now : Int) (headers : List (String × String)) :
    Except AuthError ParsedAuthData :=
  match lookupHeader headers timestampHdr, lookupHeader headers authHeaderName with
  | some strTmstmp, some authVal =>
    match parseTimestamp strTmstmp with
    | none => .error .malformed_timestamp
    | some tmstmp =>
      if now - allowedTimestampOffset ≤ tmstmp ∧ tmstmp ≤ now + allowedTimestampOffset then
        match matchAuthHeader authVal with
        | none => .error .malformed_auth_header
        | some (deviceId, strSignDate, sigVal) =>
          match parseSignDate strSignDate with
          | none => .error .malformed_sign_date
          | some signDate =>
            if signDate ≤ utcDay now ∧ utcDay now < signDate + signValidDays then
              .ok { timestamp := strTmstmp, deviceId := deviceId,
                    signDate := strSignDate, signature := sigVal }
            else
              .error .sign_date_out_of_bounds
      else
        .error .timestamp_out_of_bounds
  | _, _ => .error .missing_headers

/-- C2: with both authentication headers present and a well-formed timestamp,
the parse pipeline reports `timestamp_out_of_bounds` exactly when the
timestamp lies outside the inclusive window `[now - 300 s, now + 300 s]`;
in particular a timestamp exactly 300 s away is accepted (the check passes)
and one 301 s away is rejected with that error kind. -/
theorem parseAuth_timestamp_window (now t : Int) (hs : List (String × String)) (ts av : String)
    (h1 : lookupHeader hs timestampHdr = some ts)
    (h2 : lookupHeader hs authHeaderName = some av)
    (h3 : parseTimestamp ts = some t) :
    parseHttpRequestAuthentication now hs = .error .timestamp_out_of_bounds ↔
      ¬ (now - 300 ≤ t ∧ t ≤ now + 300) := by
  unfold parseHttpRequestAuthentication
  rw [h1, h2]
  dsimp only
  rw [h3]
  simp only [allowedTimestampOffset, signValidDays]
  by_cases hw : now - 300 ≤ t ∧ t ≤ now + 300
  · rw [if_pos hw]
    rw [iff_false_intro (not_not_intro hw)]
    rcases hma : matchAuthHeader av with _ | ⟨dev, sd, sg⟩
    · simp
    · dsimp only
      rcases hsd : parseSignDate sd with _ | d
      · simp
      · dsimp only
        by_cases hd : d ≤ utcDay now ∧ utcDay now < d + 7
        · rw [if_pos hd]
          simp
        · rw [if_neg hd]
          simp
  · rw [if_neg hw]
    simpa using hw

def hsC2 : List (String × String) :=
  [("x-bcot-timestamp", "20230101T000000Z"), ("authorization", "whatever")]

/-- C2 witness: the timestamp `20230101T000000Z` (epoch second 1672531200) is
accepted when `now` is exactly 300 s later and rejected when `now` is 301 s
later. -/
theorem parseAuth_timestamp_window_witness :
    parseHttpRequestAuthentication 1672531500 hsC2 ≠ .error .timestamp_out_of_bounds ∧
    parseHttpRequestAuthentication 1672531501 hsC2 = .error .timestamp_out_of_bounds := by
  constructor
  · intro hc
    exact (parseAuth_timestamp_window 1672531500 1672531200 hsC2 "20230101T000000Z"
      "whatever" rfl rfl (by decide)).mp hc (by decide)
  · exact (parseAuth_timestamp_window 1672531501 1672531200 hsC2 "20230101T000000Z"
      "whatever" rfl rfl (by decide)).mpr (by decide)

/-- C3: with both headers present, a well-formed in-window timestamp, a
well-formed authorization value and a well-formed sign date, the parse
succeeds exactly when the current UTC day lies in the half-open interval
`[signDate, signDate + 7 days)` (day granularity), and otherwise fails with
`sign_date_out_of_bounds`. -/
theorem parseAuth_signDate_window (now t d : Int) (hs : List (String × String))
    (ts av dev sd sg : String)
    (h1 : lookupHeader hs timestampHdr = some ts)
    (h2 : lookupHeader hs authHeaderName = some av)
    (h3 : parseTimestamp ts = some t)
    (h4 : now - 300 ≤ t ∧ t ≤ now + 300)
    (h5 : matchAuthHeader av = some (dev, sd, sg))
    (h6 : parseSignDate sd = some d) :
    (parseHttpRequestAuthentication now hs =
        .ok { timestamp := ts, deviceId := dev, signDate := sd, signature := sg } ↔
      d ≤ utcDay now ∧ utcDay now < d + 7) ∧
    (parseHttpRequestAuthentication now hs = .error .sign_date_out_of_bounds ↔
      ¬ (d ≤ utcDay now ∧ utcDay now < d + 7)) := by
  unfold parseHttpRequestAuthentication
  rw [h1, h2]
  dsimp only
  rw [h3]
  simp only [allowedTimestampOffset, signValidDays]
  rw [if_pos h4, h5]
  dsimp only
  rw [h6]
  dsimp only
  by_cases hd : d ≤ utcDay now ∧ utcDay now < d + 7
  · rw [if_pos hd]
    simp [hd]
  · rw [if_neg hd]
    simp [hd]

def authValC3 (sd : String) : String :=
  "CTN1-HMAC-SHA256 Credential=drc3XdxNtzoucpw9xiRp/" ++ sd
    ++ "/ctn1_request, Signature="
    ++ "0000000000000000000000000000000000000000000000000000000000000000"

def hsC3 (sd : String) : List (String × String) :=
  [("x-bcot-timestamp", "20230102T000000Z"), ("authorization", authValC3 sd)]

set_option maxRecDepth 8192 in
/-- C3 witness: on 2023-01-02 (UTC day 19359), a sign date of the same day is
accepted, one 7 days earlier (2022-12-26) is rejected as
`sign_date_out_of_bounds`, and one 6 days earlier (2022-12-27) is accepted. -/
theorem parseAuth_signDate_window_witness :
    parseHttpRequestAuthentication 1672617600 (hsC3 "20230102") =
      .ok { timestamp := "20230102T000000Z", deviceId := "drc3XdxNtzoucpw9xiRp",
            signDate := "20230102",
            signature := "0000000000000000000000000000000000000000000000000000000000000000" } ∧
    parseHttpRequestAuthentication 1672617600 (hsC3 "20221226") =
      .error .sign_date_out_of_bounds ∧
    parseHttpRequestAuthentication 1672617600 (hsC3 "20221227") =
      .ok { timestamp := "20230102T000000Z", deviceId := "drc3XdxNtzoucpw9xiRp",
            signDate := "20221227",
            signature := "0000000000000000000000000000000000000000000000000000000000000000" } := by
  refine ⟨?_, ?_, ?_⟩
  · exact ((parseAuth_signDate_window 1672617600 1672617600 19359 (hsC3 "20230102")
      "20230102T000000Z" (authValC3 "20230102") "drc3XdxNtzoucpw9xiRp" "20230102"
      "0000000000000000000000000000000000000000000000000000000000000000"
      rfl rfl (by decide) (by decide) (by decide) (by decide)).1).mpr (by decide)
  · exact ((parseAuth_signDate_window 1672617600 1672617600 19352 (hsC3 "20221226")
      "20230102T000000Z" (authValC3 "20221226") "drc3XdxNtzoucpw9xiRp" "20221226"
      "0000000000000000000000000000000000000000000000000000000000000000"
      rfl rfl (by decide) (by decide) (by decide) (by decide)).2).mpr (by decide)
  · exact ((parseAuth_signDate_window 1672617600 1672617600 19353 (hsC3 "20221227")
      "20230102T000000Z" (authValC3 "20221227") "drc3XdxNtzoucpw9xiRp" "20221227"
      "0000000000000000000000000000000000000000000000000000000000000000"
      rfl rfl (by decide) (by decide) (by decide) (by decide)).1).mpr (by decide)

/-! ### Scanner lemmas for the authorization-header regular expression -/

theorem dropLit_append (l r : List Char) : dropLit l (l ++ r) = some r := by
  induction l with
  | nil => rfl
  | cons c cs ih => simp [dropLit, ih]

theorem dropSpaces_cons_of_ne (c : Char) (cs : List Char) (hc : c ≠ ' ') :
    dropSpaces (c :: cs) = c :: cs := by
  simp [dropSpaces, hc]

theorem takeCount_append (p : Char → Bool) (xs r : List Char)
    (hall : xs.all p = true) :
    takeCount p xs.length (xs ++ r) = some (xs, r) := by
  induction xs with
  | nil => rfl
  | cons c cs ih =>
    simp only [List.all_cons, Bool.and_eq_true] at hall
    simp [takeCount, hall.1, ih hall.2]

theorem word_char_ne_space {c : Char} (h : isWordChar c = true) : c ≠ ' ' := by
  intro he
  subst he
  exact absurd h (by decide)

theorem hex_char_ne_space {c : Char} (h : isHexDigitChar c = true) : c ≠ ' ' := by
  intro he
  subst he
  exact absurd h (by decide)

/-- The canonical authorization header value, with the two keywords passed in
so that their letter case can be varied. -/
def mkAuthHeaderValue (credKw sigKw dev date sig : String) : String :=
  signMethodId ++ " " ++ credKw ++ "=" ++ dev ++ "/" ++ date ++ "/" ++ scopeRequest
    ++ ", " ++ sigKw ++ "=" ++ sig

theorem matchAuthStart_build (ck : String) (rest : List Char)
    (hck : ck = "Credential" ∨ ck = "credential") :
    matchAuthStart (signMethodId.data ++ (' ' :: (ck.data ++ ('=' :: rest)))) = some rest := by
  rcases hck with h | h <;> subst h <;> rfl

theorem matchAuthSignatureKeyword_build (sk : String) (rest : List Char)
    (hsk : sk = "Signature" ∨ sk = "signature") :
    matchAuthSignatureKeyword (',' :: ' ' :: (sk.data ++ ('=' :: rest))) = some rest := by
  rcases hsk with h | h <;> subst h <;> rfl

theorem matchAuthCredentialValue_build (dev date rest : List Char)
    (hdev : dev.length = 20) (hdevc : dev.all isWordChar = true)
    (hdate : date.length = 8) (hdatec : date.all Char.isDigit = true) :
    matchAuthCredentialValue (dev ++ ('/' :: (date ++ ('/' :: (scopeRequest.data ++ rest)))))
      = some (dev, date, rest) := by
  unfold matchAuthCredentialValue
  rw [show (20 : Nat) = dev.length from hdev.symm, takeCount_append _ _ _ hdevc,
    Option.some_bind]
  dsimp only
  rw [show dropLit ['/'] ('/' :: (date ++ ('/' :: (scopeRequest.data ++ rest))))
      = some (date ++ ('/' :: (scopeRequest.data ++ rest))) from rfl, Option.some_bind]
  rw [show (8 : Nat) = date.length from hdate.symm, takeCount_append _ _ _ hdatec,
    Option.some_bind]
  dsimp only
  rw [← List.cons_append, dropLit_append, Option.some_bind]

theorem matchAuthHexValue_build (sig : List Char)
    (hsig : sig.length = 64) (hsigc : sig.all isHexDigitChar = true) :
    matchAuthHexValue sig = some sig := by
  unfold matchAuthHexValue
  have h := takeCount_append isHexDigitChar sig [] hsigc
  rw [List.append_nil] at h
  rw [show (64 : Nat) = sig.length from hsig.symm, h, Option.some_bind]
  simp [dropSpaces]

/-- C4 (amended): the `Credential` and `Signature` keywords are accepted with
either an uppercase or a lowercase initial letter (the remaining letters must
be exactly as written): for all well-shaped deviceId (20 word characters),
sign date (8 digits) and signature (64 hex digits), every such keyword
variant parses successfully and yields the same three captures. -/
theorem matchAuthHeader_keyword_initial_case
    (dev date sig ck sk : String)
    (hdev : dev.data.length = 20) (hdevc : dev.data.all isWordChar = true)
    (hdate : date.data.length = 8) (hdatec : date.data.all Char.isDigit = true)
    (hsig : sig.data.length = 64) (hsigc : sig.data.all isHexDigitChar = true)
    (hck : ck = "Credential" ∨ ck = "credential")
    (hsk : sk = "Signature" ∨ sk = "signature") :
    matchAuthHeader (mkAuthHeaderValue ck sk dev date sig) = some (dev, date, sig) := by
  obtain ⟨c0, dev', hdev_eq⟩ : ∃ c cs, dev.data = c :: cs := by
    cases h : dev.data with
    | nil => rw [h] at hdev; simp at hdev
    | cons a l => exact ⟨a, l, rfl⟩
  obtain ⟨s0, sig', hsig_eq⟩ : ∃ c cs, sig.data = c :: cs := by
    cases h : sig.data with
    | nil => rw [h] at hsig; simp at hsig
    | cons a l => exact ⟨a, l, rfl⟩
  have hc0 : isWordChar c0 = true := by
    rw [hdev_eq] at hdevc
    simp only [List.all_cons, Bool.and_eq_true] at hdevc
    exact hdevc.1
  have hs0 : isHexDigitChar s0 = true := by
    rw [hsig_eq] at hsigc
    simp only [List.all_cons, Bool.and_eq_true] at hsigc
    exact hsigc.1
  have hmk : (mkAuthHeaderValue ck sk dev date sig).data =
      signMethodId.data ++ (' ' :: (ck.data ++ ('=' :: (dev.data ++ ('/' :: (date.data
        ++ ('/' :: (scopeRequest.data ++ (',' :: ' ' :: (sk.data
        ++ ('=' :: sig.data))))))))))) := by
    simp [mkAuthHeaderValue, String.data_append]
  have hds : dropSpaces (dev.data ++ ('/' :: (date.data ++ ('/' :: (scopeRequest.data
      ++ (',' :: ' ' :: (sk.data ++ ('=' :: sig.data)))))))) =
      dev.data ++ ('/' :: (date.data ++ ('/' :: (scopeRequest.data
      ++ (',' :: ' ' :: (sk.data ++ ('=' :: sig.data))))))) := by
    rw [hdev_eq, List.cons_append,
      dropSpaces_cons_of_ne _ _ (word_char_ne_space hc0), ← List.cons_append, ← hdev_eq]
  have hds2 : dropSpaces sig.data = sig.data := by
    rw [hsig_eq, dropSpaces_cons_of_ne _ _ (hex_char_ne_space hs0)]
  unfold matchAuthHeader matchAuthChars
  rw [hmk, matchAuthStart_build ck _ hck, Option.some_bind, hds,
    matchAuthCredentialValue_build dev.data date.data _ hdev hdevc hdate hdatec,
    Option.some_bind]
  dsimp only
  rw [matchAuthSignatureKeyword_build sk _ hsk, Option.some_bind, hds2,
    matchAuthHexValue_build sig.data hsig hsigc, Option.some_bind]

def sig64Zeros : String :=
  "0000000000000000000000000000000000000000000000000000000000000000"

set_option maxRecDepth 8192 in
/-- C4 (counterexample to the claim as stated): the fully uppercased keyword
`CREDENTIAL` is rejected, although the same value with `Credential` parses;
only the initial letter of each keyword is case-insensitive. -/
theorem matchAuthHeader_uppercase_keyword_rejected :
    matchAuthHeader ("CTN1-HMAC-SHA256 Credential=drc3XdxNtzoucpw9xiRp/20230101/ctn1_request, Signature=" ++ sig64Zeros)
      = some ("drc3XdxNtzoucpw9xiRp", "20230101", sig64Zeros) ∧
    matchAuthHeader ("CTN1-HMAC-SHA256 CREDENTIAL=drc3XdxNtzoucpw9xiRp/20230101/ctn1_request, Signature=" ++ sig64Zeros)
      = none ∧
    matchAuthHeader ("CTN1-HMAC-SHA256 Credential=drc3XdxNtzoucpw9xiRp/20230101/ctn1_request, SIGNATURE=" ++ sig64Zeros)
      = none := by
  refine ⟨by decide, by decide, by decide⟩

set_option maxRecDepth 8192 in
/-- C4 witness: the amended theorem applied to the lowercase-initial variants
at concrete captures. -/
theorem matchAuthHeader_keyword_initial_case_witness :
    matchAuthHeader (mkAuthHeaderValue "credential" "signature"
        "drc3XdxNtzoucpw9xiRp" "20230101" sig64Zeros)
      = some ("drc3XdxNtzoucpw9xiRp", "20230101", sig64Zeros) :=
  matchAuthHeader_keyword_initial_case "drc3XdxNtzoucpw9xiRp" "20230101" sig64Zeros
    "credential" "signature" (by decide) (by decide) (by decide) (by decide)
    (by decide) (by decide) (Or.inr rfl) (Or.inr rfl)

/-! ### URL query comparison (src/ApiServer.js, lines 547-601)

A parsed query string is a list of `(name, value)` pairs in order
(`URLSearchParams` entries). -/

def spKeys (q : List (String × String)) : List String :=
  q.map (fun e => e.1)

def spHas (k : String) (q : List (String × String)) : Bool :=
  q.any (fun e => e.1 == k)

def spGetAll (k : String) (q : List (String × String)) : List String :=
  (q.filter (fun e => e.1 == k)).map (fun e => e.2)

/-- Iteration order of `new Set(keys1)`: first occurrences, in order. -/
def uniqFirstAux (seen : List String) : List String → List String
  | [] => []
  | x :: xs => if x ∈ seen then uniqFirstAux seen xs else x :: uniqFirstAux (x :: seen) xs

def uniqFirst (l : List String) : List String :=
  uniqFirstAux [] l

/-- JS `Array.sort()` compares strings lexicographically by code units;
embedded as an executable Boolean comparison on the character lists. -/
def lexLe : List Char → List Char → Bool
  | [], _ => true
  | _ :: _, [] => false
  | a :: as, b :: bs => if a < b then true else if b < a then false else lexLe as bs

def jsSortLe (a b : String) : Prop :=
  lexLe a.data b.data = true

instance : DecidableRel jsSortLe := fun a b =>
  inferInstanceAs (Decidable (lexLe a.data b.data = true))

def sortStrs (l : List String) : List String :=
  List.insertionSort jsSortLe l

theorem lexLe_total (a b : List Char) : lexLe a b = true ∨ lexLe b a = true := by
  induction a generalizing b with
  | nil => left; rfl
  | cons x as ih =>
    cases b with
    | nil => right; rfl
    | cons y bs =>
      rcases lt_trichotomy x y with h | h | h
      · left
        simp [lexLe, h]
      · subst h
        rcases ih bs with h2 | h2
        · left
          simp [lexLe, lt_irrefl, h2]
        · right
          simp [lexLe, lt_irrefl, h2]
      · right
        simp [lexLe, h]

theorem lexLe_trans (a b c : List Char) (h1 : lexLe a b = true) (h2 : lexLe b c = true) :
    lexLe a c = true := by
  induction a generalizing b c with
  | nil => rfl
  | cons x as ih =>
    cases b with
    | nil => simp [lexLe] at h1
    | cons y bs =>
      cases c with
      | nil => simp [lexLe] at h2
      | cons z cs =>
        by_cases hxy : x < y
        · by_cases hyz : y < z
          · simp [lexLe, lt_trans hxy hyz]
          · by_cases hzy : z < y
            · simp [lexLe, hyz, hzy] at h2
            · have hyz' : y = z := le_antisymm (not_lt.mp hzy) (not_lt.mp hyz)
              subst hyz'
              simp [lexLe, hxy]
        · by_cases hyx : y < x
          · simp [lexLe, hxy, hyx] at h1
          · have hxy' : x = y := le_antisymm (not_lt.mp hyx) (not_lt.mp hxy)
            subst hxy'
            by_cases hxz : x < z
            · simp [lexLe, hxz]
            · by_cases hzx : z < x
              · simp [lexLe, hxz, hzx] at h2
              · have hxz' : x = z := le_antisymm (not_lt.mp hzx) (not_lt.mp hxz)
                subst hxz'
                simp only [lexLe, if_neg (lt_irrefl x)] at h1 h2 ⊢
                exact ih bs cs h1 h2

theorem lexLe_antisymm (a b : List Char) (h1 : lexLe a b = true) (h2 : lexLe b a = true) :
    a = b := by
  induction a generalizing b with
  | nil =>
    cases b with
    | nil => rfl
    | cons y bs => simp [lexLe] at h2
  | cons x as ih =>
    cases b with
    | nil => simp [lexLe] at h1
    | cons y bs =>
      by_cases hxy : x < y
      · simp [lexLe, hxy, lt_asymm hxy] at h2
      · by_cases hyx : y < x
        · simp [lexLe, hxy, hyx] at h1
        · have hxy' : x = y := le_antisymm (not_lt.mp hyx) (not_lt.mp hxy)
          subst hxy'
          simp only [lexLe, if_neg (lt_irrefl x)] at h1 h2
          rw [ih bs h1 h2]

instance : IsTotal String jsSortLe :=
  ⟨fun a b => lexLe_total a.data b.data⟩

instance : IsTrans String jsSortLe :=
  ⟨fun a b c => lexLe_trans a.data b.data c.data⟩

instance : IsAntisymm String jsSortLe :=
  ⟨fun a b h1 h2 => String.ext (lexLe_antisymm a.data b.data h1 h2)⟩

/-- The index loop of `areArraysEqual` (equal lengths guaranteed by caller). -/
def eqElementwise : List String → List String → Bool
  | [], [] => true
  | x :: xs, y :: ys => x == y && eqElementwise xs ys
  | _, _ => false

def areArraysEqual (a1 a2 : List String) : Bool :=
  if a1.length = a2.length then
    if a1.length = 1 then a1.head? == a2.head?
    else eqElementwise (sortStrs a1) (sortStrs a2)
  else false

def areUrlsSearchEqual (q1 q2 : List (String × String)) : Bool :=
  let keys1 := spKeys q1
  let keys2 := spKeys q2
  if keys1.length = keys2.length then
    (uniqFirst keys1).all (fun k => spHas k q2 && areArraysEqual (spGetAll k q2) (spGetAll k q1))
  else false

/-! Query-string parsing for the spec's literal examples (`URLSearchParams`
on simple queries without percent-escapes). -/

def splitOnAmp : List Char → List (List Char)
  | [] => [[]]
  | c :: cs =>
    match splitOnAmp cs with
    | [] => [[c]]
    | g :: gs => if c = '&' then [] :: g :: gs else (c :: g) :: gs

def parsePairAux (acc : List Char) : List Char → String × String
  | [] => (⟨acc.reverse⟩, "")
  | c :: cs => if c = '=' then (⟨acc.reverse⟩, ⟨cs⟩) else parsePairAux (c :: acc) cs

def parseQuery (s : String) : List (String × String) :=
  let cs := match s.data with
    | '?' :: rest => rest
    | cs => cs
  ((splitOnAmp cs).filter (fun g => !g.isEmpty)).map (fun g => parsePairAux [] g)

/-! ### Lemmas about the query comparison -/

theorem eqElementwise_iff (a b : List String) : eqElementwise a b = true ↔ a = b := by
  induction a generalizing b with
  | nil => cases b <;> simp [eqElementwise]
  | cons x xs ih => cases b <;> simp [eqElementwise, ih]

theorem areArraysEqual_iff_perm (a b : List String) :
    areArraysEqual a b = true ↔ List.Perm a b := by
  unfold areArraysEqual
  by_cases hl : a.length = b.length
  · rw [if_pos hl]
    by_cases h1 : a.length = 1
    · rw [if_pos h1]
      obtain ⟨x, rfl⟩ := List.length_eq_one.mp h1
      obtain ⟨y, rfl⟩ := List.length_eq_one.mp (hl ▸ h1)
      constructor
      · intro h
        have hxy : x = y := by simpa using h
        rw [hxy]
      · intro h
        have hxy : x = y := by simpa using (List.perm_singleton.mp h)
        simp [hxy]
    · rw [if_neg h1, eqElementwise_iff]
      have h1a : List.Perm (sortStrs a) a := List.perm_insertionSort jsSortLe a
      have h2b : List.Perm (sortStrs b) b := List.perm_insertionSort jsSortLe b
      constructor
      · intro hsort
        rw [← hsort] at h2b
        exact h1a.symm.trans h2b
      · intro hperm
        exact List.eq_of_perm_of_sorted
          (h1a.trans (hperm.trans h2b.symm))
          (List.sorted_insertionSort jsSortLe a) (List.sorted_insertionSort jsSortLe b)
  · rw [if_neg hl]
    constructor
    · intro h
      exact absurd h Bool.false_ne_true
    · intro hperm
      exact absurd hperm.length_eq hl

theorem spGetAll_length (k : String) (q : List (String × String)) :
    (spGetAll k q).length = (spKeys q).count k := by
  induction q with
  | nil => rfl
  | cons e q ih =>
    simp only [spGetAll, spKeys, List.filter_cons, List.map_cons, List.count_cons] at ih ⊢
    by_cases he : e.1 = k
    · simp only [he, beq_self_eq_true, if_true, List.map_cons, List.length_cons, ih]
    · have hne : (e.1 == k) = false := beq_eq_false_iff_ne.mpr he
      simp only [hne, Bool.false_eq_true, if_false, ih]
      omega

theorem spHas_iff (k : String) (q : List (String × String)) :
    spHas k q = true ↔ k ∈ spKeys q := by
  induction q with
  | nil => simp [spHas, spKeys]
  | cons e q ih =>
    by_cases he : e.1 = k
    · simp [spHas, spKeys, he]
    · simp only [spHas, spKeys, List.any_cons, List.map_cons, List.mem_cons,
        Bool.or_eq_true, beq_iff_eq] at ih ⊢
      constructor
      · rintro (h | h)
        · exact absurd h he
        · exact Or.inr (ih.mp h)
      · rintro (h | h)
        · exact absurd h.symm he
        · exact Or.inr (ih.mpr h)

theorem spGetAll_eq_nil_iff (k : String) (q : List (String × String)) :
    spGetAll k q = [] ↔ k ∉ spKeys q := by
  rw [← List.length_eq_zero, spGetAll_length, List.count_eq_zero]

theorem uniqFirstAux_mem (k : String) (l seen : List String) :
    k ∈ uniqFirstAux seen l ↔ k ∈ l ∧ k ∉ seen := by
  induction l generalizing seen with
  | nil => simp [uniqFirstAux]
  | cons x xs ih =>
    by_cases hx : x ∈ seen
    · rw [uniqFirstAux, if_pos hx, ih]
      by_cases hk : k = x
      · subst hk
        simp [hx]
      · simp [hk]
    · rw [uniqFirstAux, if_neg hx]
      by_cases hk : k = x
      · subst hk
        simp [hx]
      · simp only [List.mem_cons, ih, List.mem_cons]
        constructor
        · rintro (h | ⟨h1, h2⟩)
          · exact absurd h hk
          · exact ⟨Or.inr h1, fun hs => h2 (Or.inr hs)⟩
        · rintro ⟨h1 | h1, h2⟩
          · exact absurd h1 hk
          · exact Or.inr ⟨h1, fun hs => hs.elim (fun hx2 => hk hx2) h2⟩

theorem uniqFirst_mem (k : String) (l : List String) : k ∈ uniqFirst l ↔ k ∈ l := by
  rw [uniqFirst, uniqFirstAux_mem]
  simp

theorem keys_perm_of_getAll_perm (q1 q2 : List (String × String))
    (h : ∀ k, List.Perm (spGetAll k q1) (spGetAll k q2)) :
    List.Perm (spKeys q1) (spKeys q2) := by
  rw [List.perm_iff_count]
  intro k
  rw [← spGetAll_length, ← spGetAll_length]
  exact (h k).length_eq

theorem areUrlsSearchEqual_iff (q1 q2 : List (String × String)) :
    areUrlsSearchEqual q1 q2 = true ↔ ∀ k, List.Perm (spGetAll k q1) (spGetAll k q2) := by
  unfold areUrlsSearchEqual
  by_cases hl : (spKeys q1).length = (spKeys q2).length
  · rw [if_pos hl]
    rw [List.all_eq_true]
    constructor
    · intro hall k
      by_cases hk : k ∈ spKeys q1
      · have h := hall k (by rw [uniqFirst_mem]; exact hk)
        rw [Bool.and_eq_true] at h
        exact (areArraysEqual_iff_perm _ _ |>.mp h.2).symm
      · -- the multiset counting argument: the keys of q2 are exactly those of q1
        have hle : (↑(spKeys q1) : Multiset String) ≤ ↑(spKeys q2) := by
          rw [Multiset.le_iff_count]
          intro a
          by_cases ha : a ∈ spKeys q1
          · have h := hall a (by rw [uniqFirst_mem]; exact ha)
            rw [Bool.and_eq_true] at h
            have hp := (areArraysEqual_iff_perm _ _ |>.mp h.2)
            rw [Multiset.coe_count, Multiset.coe_count,
              ← spGetAll_length, ← spGetAll_length]
            exact le_of_eq hp.length_eq.symm
          · rw [Multiset.coe_count, List.count_eq_zero.mpr ha]
            exact Nat.zero_le _
        have hcards : Multiset.card (↑(spKeys q2) : Multiset String)
            ≤ Multiset.card (↑(spKeys q1) : Multiset String) := by
          show (spKeys q2).length ≤ (spKeys q1).length
          omega
        have heq := Multiset.eq_of_le_of_card_le hle hcards
        have hperm := Multiset.coe_eq_coe.mp heq
        have h2 : k ∉ spKeys q2 := fun hk2 => hk (hperm.mem_iff.mpr hk2)
        rw [(spGetAll_eq_nil_iff _ _).mpr hk, (spGetAll_eq_nil_iff _ _).mpr h2]
    · intro h k hk
      rw [uniqFirst_mem] at hk
      have hkeys := keys_perm_of_getAll_perm q1 q2 h
      rw [Bool.and_eq_true]
      constructor
      · rw [spHas_iff]
        exact hkeys.mem_iff.mp hk
      · exact (areArraysEqual_iff_perm _ _).mpr (h k).symm
  · rw [if_neg hl]
    constructor
    · intro h
      exact absurd h Bool.false_ne_true
    · intro hc
      exact absurd (keys_perm_of_getAll_perm q1 q2 hc).length_eq hl

set_option maxRecDepth 4096 in
/-- C5: the matcher's query comparison is order-insensitive and
multiset-based: it succeeds exactly when the two queries have the same set of
parameter names and, for each name, equal multisets of values; it is
symmetric in its two arguments; `?a=1&b=2&b=3` matches `?b=3&a=1&b=2` and
does not match `?a=1&b=2`. -/
theorem areUrlsSearchEqual_correct :
    (∀ q1 q2 : List (String × String),
      areUrlsSearchEqual q1 q2 = true ↔
        ((∀ k, spHas k q1 = spHas k q2) ∧
          ∀ k, List.Perm (spGetAll k q1) (spGetAll k q2))) ∧
    (∀ q1 q2 : List (String × String),
      areUrlsSearchEqual q1 q2 = areUrlsSearchEqual q2 q1) ∧
    areUrlsSearchEqual (parseQuery "?a=1&b=2&b=3") (parseQuery "?b=3&a=1&b=2") = true ∧
    areUrlsSearchEqual (parseQuery "?a=1&b=2&b=3") (parseQuery "?a=1&b=2") = false := by
  have hmain : ∀ q1 q2 : List (String × String),
      areUrlsSearchEqual q1 q2 = true ↔
        ((∀ k, spHas k q1 = spHas k q2) ∧
          ∀ k, List.Perm (spGetAll k q1) (spGetAll k q2)) := by
    intro q1 q2
    rw [areUrlsSearchEqual_iff]
    constructor
    · intro h
      refine ⟨fun k => ?_, h⟩
      rw [Bool.eq_iff_iff, spHas_iff, spHas_iff]
      exact ((keys_perm_of_getAll_perm q1 q2 h).mem_iff)
    · intro h
      exact h.2
  refine ⟨hmain, fun q1 q2 => ?_, by decide, by decide⟩
  rw [Bool.eq_iff_iff, areUrlsSearchEqual_iff, areUrlsSearchEqual_iff]
  exact ⟨fun h k => (h k).symm, fun h k => (h k).symm⟩

/-! ### ApiServer.authenticateRequest (src/ApiServer.js, lines 339-430) -/

structure ErrorResponseInfo where
  code : Nat
  message : String
deriving DecidableEq

inductive AuthResult where
  | ok (deviceId : String)
  | err (info : ErrorResponseInfo)
deriving DecidableEq

/-- The catch-block mapping from parse-error kinds to error responses. -/
def authErrorResponse : AuthError → ErrorResponseInfo
  | .missing_headers => ⟨401, "Authorization failed; missing required HTTP headers"⟩
  | .malformed_timestamp => ⟨401, "Authorization failed; timestamp not well formed"⟩
  | .timestamp_out_of_bounds =>
    ⟨401, "Authorization failed; timestamp not within acceptable time variation"⟩
  | .malformed_auth_header => ⟨401, "Authorization failed; authorization value not well formed"⟩
  | .malformed_sign_date => ⟨401, "Authorization failed; signature date not well formed"⟩
  | .sign_date_out_of_bounds => ⟨401, "Authorization failed; signature date out of bounds"⟩

/-- The credentials registry (`Map deviceId → {deviceId, apiAccessSecret}`),
modelled as an association list from device id to access secret. -/
def lookupCred (creds : List (String × String)) (deviceId : String) : Option String :=
  match creds with
  | [] => none
  | (k, v) :: rest => if k = deviceId then some v else lookupCred rest deviceId

def invalidDeviceOrSignature : ErrorResponseInfo :=
  ⟨401, "Authorization failed; invalid device or signature"⟩

def authenticateRequest (sha256 : List Nat → List Nat)
    (hmacSHA256 : List Nat → List Nat → List Nat) (now : Int)
    (creds : List (String × String)) (req : HttpRequest)
    (reqBody : Option (List Nat)) : AuthResult :=
  match parseHttpRequestAuthentication now req.headers with
  | .error e => .err (authErrorResponse e)
  | .ok authData =>
    match lookupCred creds authData.deviceId with
    | none => .err invalidDeviceOrSignature
    | some apiAccessSecret =>
      let reqSignature := signHttpRequest sha256 hmacSHA256 req
        { timestamp := authData.timestamp, signDate := authData.signDate,
          apiAccessSecret := apiAccessSecret, reqBody := reqBody.getD [] }
      if reqSignature = authData.signature then .ok authData.deviceId
      else .err invalidDeviceOrSignature

/-- C6: whenever header parsing succeeds, `authenticateRequest` returns the
401 "Authorization failed; invalid device or signature" error both for a
device id missing from the credentials registry (in particular an empty
registry) and for a recomputed signature differing from the header
signature; it returns the device id exactly when the device is known and the
signatures are equal (exact, case-sensitive string comparison). -/
theorem authenticateRequest_device_and_signature
    (sha256 : List Nat → List Nat) (hmacSHA256 : List Nat → List Nat → List Nat)
    (now : Int) (creds : List (String × String)) (req : HttpRequest)
    (reqBody : Option (List Nat)) (authData : ParsedAuthData)
    (hp : parseHttpRequestAuthentication now req.headers = .ok authData) :
    (creds = [] → authenticateRequest sha256 hmacSHA256 now creds req reqBody
        = .err invalidDeviceOrSignature) ∧
    (lookupCred creds authData.deviceId = none →
      authenticateRequest sha256 hmacSHA256 now creds req reqBody
        = .err invalidDeviceOrSignature) ∧
    (∀ apiAccessSecret, lookupCred creds authData.deviceId = some apiAccessSecret →
      (signHttpRequest sha256 hmacSHA256 req
          { timestamp := authData.timestamp, signDate := authData.signDate,
            apiAccessSecret := apiAccessSecret, reqBody := reqBody.getD [] }
          ≠ authData.signature →
        authenticateRequest sha256 hmacSHA256 now creds req reqBody
          = .err invalidDeviceOrSignature) ∧
      (signHttpRequest sha256 hmacSHA256 req
          { timestamp := authData.timestamp, signDate := authData.signDate,
            apiAccessSecret := apiAccessSecret, reqBody := reqBody.getD [] }
          = authData.signature →
        authenticateRequest sha256 hmacSHA256 now creds req reqBody
          = .ok authData.deviceId)) := by
  refine ⟨?_, ?_, ?_⟩
  · intro hc
    subst hc
    unfold authenticateRequest
    rw [hp]
    rfl
  · intro hnone
    unfold authenticateRequest
    rw [hp]
    dsimp only
    rw [hnone]
  · intro s hs
    unfold authenticateRequest
    rw [hp]
    dsimp only
    rw [hs]
    constructor
    · intro hne
      dsimp only
      rw [if_neg hne]
    · intro heq
      dsimp only
      rw [if_pos heq]

def reqC6 : HttpRequest :=
  { method := "POST", url := "/api/0.13/messages/log",
    headers := [("host", "localhost"),
      ("x-bcot-timestamp", "20230102T000000Z"),
      ("authorization", authValC3 "20230102")] }

def hmacZeros : List Nat → List Nat → List Nat := fun _ _ => List.replicate 32 0

def authDataC6 : ParsedAuthData :=
  { timestamp := "20230102T000000Z", deviceId := "drc3XdxNtzoucpw9xiRp",
    signDate := "20230102", signature := sig64Zeros }

set_option maxRecDepth 16384 in
/-- C6 witness: at a concrete parseable request, the empty registry and a
wrong signature both give the 401 invalid-device-or-signature error, and a
matching signature authenticates the device. -/
theorem authenticateRequest_device_and_signature_witness :
    authenticateRequest shaId hmacConcat 1672617600 [] reqC6 none
      = .err invalidDeviceOrSignature ∧
    authenticateRequest shaId hmacConcat 1672617600
      [("drc3XdxNtzoucpw9xiRp", "mySecret")] reqC6 none
      = .err invalidDeviceOrSignature ∧
    authenticateRequest shaId hmacZeros 1672617600
      [("drc3XdxNtzoucpw9xiRp", "mySecret")] reqC6 none
      = .ok "drc3XdxNtzoucpw9xiRp" := by
  refine ⟨?_, ?_, ?_⟩
  · exact (authenticateRequest_device_and_signature shaId hmacConcat 1672617600 []
      reqC6 none authDataC6 rfl).1 rfl
  · exact (((authenticateRequest_device_and_signature shaId hmacConcat 1672617600
      [("drc3XdxNtzoucpw9xiRp", "mySecret")] reqC6 none authDataC6 rfl).2.2
      "mySecret" rfl).1 (by decide))
  · exact (((authenticateRequest_device_and_signature shaId hmacZeros 1672617600
      [("drc3XdxNtzoucpw9xiRp", "mySecret")] reqC6 none authDataC6 rfl).2.2
      "mySecret" rfl).2 (by decide))

/-! ### JSON values and the installable-context validators

`Json` models values produced by `JSON.parse`.  `jsonParse` (node's
`JSON.parse` on strings) and `urlOk` (`new URL(d, 'http://host')`
parseability) are external primitives taken as parameters.  The validators
embed the `type-check`-library typedefs of src/ApiServer.js (lines 21-81)
and the notify-context typedefs of src/WSNotificationServer.js; `Maybe X`
matches the value `X`, `null`, or an absent field. -/

inductive Json where
  | null
  | bool (b : Bool)
  | num (n : Int)
  | str (s : String)
  | arr (elems : List Json)
  | obj (fields : List (String × Json))

def lookupField (fields : List (String × Json)) (k : String) : Option Json :=
  match fields with
  | [] => none
  | (k', v) :: rest => if k' = k then some v else lookupField rest k

def Json.getField : Json → String → Option Json
  | .obj fields, k => lookupField fields k
  | _, _ => none

def jsonIsNull : Json → Bool
  | .null => true
  | _ => false

/-- `jsonDataTypeDef`: a string that `JSON.parse`s to a non-null value. -/
def checkJsonData (jsonParse : String → Option Json) : Json → Bool
  | .str s =>
    match jsonParse s with
    | some v => !(jsonIsNull v)
    | none => false
  | _ => false

/-- `httpMethodTypeDef`. -/
def checkHttpMethod : Json → Bool
  | .str s => s == "GET" || s == "POST"
  | _ => false

/-- `httpPathTypeDef` (URL parseability is the external `urlOk`). -/
def checkHttpPath (urlOk : String → Bool) : Json → Bool
  | .str s => urlOk s
  | _ => false

def checkBoolean : Json → Bool
  | .bool _ => true
  | _ => false

def checkNumber : Json → Bool
  | .num _ => true
  | _ => false

def checkString : Json → Bool
  | .str _ => true
  | _ => false

/-- `nonEmptyStringTypeDef`. -/
def checkNonEmptyString : Json → Bool
  | .str s => decide (0 < s.data.length)
  | _ => false

/-- A `Maybe`-typed field: absent and `null` are accepted. -/
def maybeCheck (check : Json → Bool) : Option Json → Bool
  | none => true
  | some .null => true
  | some v => check v

/-- A required field: must be present and match. -/
def reqCheck (check : Json → Bool) : Option Json → Bool
  | some v => check v
  | none => false

/-- Object shapes declare their exact key set (no extra properties). -/
def keysAmong (fields : List (String × Json)) (allowed : List String) : Bool :=
  fields.all (fun f => allowed.contains f.1)

def checkExpectedRequest (jsonParse : String → Option Json) (urlOk : String → Bool) :
    Json → Bool
  | .obj fields =>
    keysAmong fields ["httpMethod", "apiMethodPath", "data", "authenticate"] &&
    reqCheck checkHttpMethod (lookupField fields "httpMethod") &&
    reqCheck (checkHttpPath urlOk) (lookupField fields "apiMethodPath") &&
    maybeCheck (checkJsonData jsonParse) (lookupField fields "data") &&
    maybeCheck checkBoolean (lookupField fields "authenticate")
  | _ => false

/-- `{data: JsonData} | {statusCode: Number, errorMessage: String}`. -/
def checkRequiredResponse (jsonParse : String → Option Json) : Json → Bool
  | .obj fields =>
    (keysAmong fields ["data"] &&
      reqCheck (checkJsonData jsonParse) (lookupField fields "data")) ||
    (keysAmong fields ["statusCode", "errorMessage"] &&
      reqCheck checkNumber (lookupField fields "statusCode") &&
      reqCheck checkString (lookupField fields "errorMessage"))
  | _ => false

def isValidHttpContext (jsonParse : String → Option Json) (urlOk : String → Bool) :
    Json → Bool
  | .obj fields =>
    keysAmong fields ["expectedRequest", "requiredResponse"] &&
    reqCheck (checkExpectedRequest jsonParse urlOk) (lookupField fields "expectedRequest") &&
    maybeCheck (checkRequiredResponse jsonParse) (lookupField fields "requiredResponse")
  | _ => false

def checkSingleCredentials : Json → Bool
  | .obj fields =>
    keysAmong fields ["deviceId", "apiAccessSecret"] &&
    reqCheck checkNonEmptyString (lookupField fields "deviceId") &&
    reqCheck checkString (lookupField fields "apiAccessSecret")
  | _ => false

/-- `{deviceId, apiAccessSecret} | [{deviceId, apiAccessSecret}]`. -/
def isValidDeviceCredentials : Json → Bool
  | .arr elems => elems.all checkSingleCredentials
  | j => checkSingleCredentials j

def notificationEvents : List String :=
  ["new-msg-received", "sent-msg-read", "asset-received", "asset-confirmed",
   "final-msg-progress", "asset-export-outcome", "asset-migration-outcome",
   "nf-token-received", "nf-token-confirmed", "nf-asset-issuance-outcome",
   "nf-token-retrieval-outcome", "nf-token-transfer-outcome"]

def checkNotificationMessageInfo (jsonParse : String → Option Json) : Json → Bool
  | .obj fields =>
    keysAmong fields ["data", "timeout"] &&
    reqCheck (checkJsonData jsonParse) (lookupField fields "data") &&
    maybeCheck checkNumber (lookupField fields "timeout")
  | _ => false

def checkEventNotificationMessage (jsonParse : String → Option Json) : Json → Bool
  | .obj fields =>
    fields.all (fun f =>
      notificationEvents.contains f.1 && checkNotificationMessageInfo jsonParse f.2)
  | _ => false

def isValidNotifyContext (jsonParse : String → Option Json) : Json → Bool
  | .obj fields =>
    fields.all (fun f =>
      decide (0 < f.1.data.length) && checkEventNotificationMessage jsonParse f.2)
  | _ => false

/-! ### The installable state and its typed setters

Each setter mirrors the source: validate, and only on success assign
(a thrown `TypeError` becomes `Except.error`, before any mutation). -/

structure EmulatorState where
  deviceCredentials : List (String × Json)
  httpContext : Option Json
  notifyContext : Option Json

def credDeviceId (c : Json) : String :=
  match c.getField "deviceId" with
  | some (.str s) => s
  | _ => ""

/-- `Map.set` on the credentials registry (insertion order preserved). -/
def mapSet (m : List (String × Json)) (k : String) (v : Json) : List (String × Json) :=
  if m.any (fun e => e.1 == k) then m.map (fun e => if e.1 == k then (k, v) else e)
  else m ++ [(k, v)]

def credentialsAsList (j : Json) : List Json :=
  match j with
  | .arr elems => elems
  | j => [j]

/-- The credentials setter clears the map and re-inserts each entry keyed by
its device id - only after validation has passed. -/
def buildCredentialsMap (cs : List Json) : List (String × Json) :=
  cs.foldl (fun m c => mapSet m (credDeviceId c) c) []

def setCredentials (st : EmulatorState) (j : Json) : Except String EmulatorState :=
  if isValidDeviceCredentials j then
    .ok { st with deviceCredentials := buildCredentialsMap (credentialsAsList j) }
  else .error "Not a valid DeviceCredentials data type"

def setHttpContext (jsonParse : String → Option Json) (urlOk : String → Bool)
    (st : EmulatorState) (j : Json) : Except String EmulatorState :=
  if isValidHttpContext jsonParse urlOk j then .ok { st with httpContext := some j }
  else .error "Not a valid HttpContext data type"

def setNotifyContext (jsonParse : String → Option Json)
    (st : EmulatorState) (j : Json) : Except String EmulatorState :=
  if isValidNotifyContext jsonParse j then .ok { st with notifyContext := some j }
  else .error "Not a valid NotifyContext data type"

/-! ### The CommandServer request handler (src/CommandServer.js switch)

The returned value is `none` when the handler falls through without sending
any response.  `body = none` models a request body on which `JSON.parse`
threw. -/

inductive CmdPayload where
  | credsList
  | httpCtxVal
  | notifyCtxVal
  | infoStr
deriving DecidableEq

inductive CmdResponse where
  | success (status : Nat) (payload : Option CmdPayload)
  | failure (status : Nat) (message : Option String)
deriving DecidableEq

/-- The shared POST flow of the three install endpoints: parse failure or a
throwing setter yields 400 with the endpoint's message and leaves the state
untouched. -/
def postInstall (install : Json → Except String EmulatorState) (st : EmulatorState)
    (body : Option Json) (failMsg : String) : CmdResponse × EmulatorState :=
  match body with
  | none => (.failure 400 (some failMsg), st)
  | some parsedBody =>
    match install parsedBody with
    | .ok st' => (.success 200 none, st')
    | .error _ => (.failure 400 (some failMsg), st)

def commandServerHandle (jsonParse : String → Option Json) (urlOk : String → Bool)
    (st : EmulatorState) (isPreflight : Bool) (method pathname : String)
    (jsonContentType : Bool) (body : Option Json) : Option (CmdResponse × EmulatorState) :=
  if isPreflight then some (.success 204 none, st)
  else if pathname = "/device-credentials" then
    if method = "GET" then some (.success 200 (some .credsList), st)
    else if method = "POST" && jsonContentType then
      some (postInstall (setCredentials st) st body "Invalid device credentials")
    else some (.failure 404 none, st)
  else if pathname = "/http-context" then
    if method = "GET" then some (.success 200 (some .httpCtxVal), st)
    else if method = "POST" && jsonContentType then
      some (postInstall (setHttpContext jsonParse urlOk st) st body "Invalid HTTP context")
    else some (.failure 404 none, st)
  else if pathname = "/notify-context" then
    if method = "GET" then some (.success 200 (some .notifyCtxVal), st)
    else if method = "POST" && jsonContentType then
      some (postInstall (setNotifyContext jsonParse st) st body "Invalid notification context")
    else some (.failure 404 none, st)
  else if pathname = "/notify-close" then
    if method = "POST" then some (.success 200 none, st)
    else some (.failure 404 none, st)
  else if pathname = "/info" then
    if method = "GET" then some (.success 200 (some .infoStr), st)
    else none
  else if pathname = "/close" then
    if method = "POST" then some (.success 200 none, st)
    else some (.failure 404 none, st)
  else some (.failure 404 none, st)

def jsonParseNone : String → Option Json := fun _ => none

def urlOkAll : String → Bool := fun _ => true

def st0 : EmulatorState :=
  { deviceCredentials := [], httpContext := none, notifyContext := none }

/-- C7: the CommandServer's `/info` case has no else-branch, so a POST to
`/info` falls through the switch without any response being sent (the claim
that every request yields exactly one response, with 404 on mismatched
methods, fails there); a mismatched method on the other control-plane paths
(e.g. GET `/notify-close`) does yield the 404. -/
theorem commandServer_info_post_sends_no_response :
    commandServerHandle jsonParseNone urlOkAll st0 false "POST" "/info" false none = none ∧
    commandServerHandle jsonParseNone urlOkAll st0 false "GET" "/notify-close" false none
      = some (.failure 404 none, st0) ∧
    commandServerHandle jsonParseNone urlOkAll st0 false "PUT" "/device-credentials" false none
      = some (.failure 404 none, st0) := by
  exact ⟨rfl, rfl, rfl⟩

/-! ### Rejected installations (C9, C10) -/

theorem maybeCheck_some_of_ne_null (c : Json → Bool) (d : Json) (hd : d ≠ .null) :
    maybeCheck c (some d) = c d := by
  cases d with
  | null => exact absurd rfl hd
  | bool b => rfl
  | num n => rfl
  | str s => rfl
  | arr es => rfl
  | obj fs => rfl

theorem keysAmong_lookup (fields : List (String × Json)) (allowed : List String)
    (k : String) (v : Json) (hall : keysAmong fields allowed = true)
    (hlk : lookupField fields k = some v) : allowed.contains k = true := by
  induction fields with
  | nil => simp [lookupField] at hlk
  | cons e rest ih =>
    simp only [keysAmong, List.all_cons, Bool.and_eq_true] at hall
    simp only [lookupField] at hlk
    by_cases he : e.1 = k
    · rw [← he]
      exact hall.1
    · rw [if_neg he] at hlk
      exact ih hall.2 hlk

/-- Shared ending: an invalid HttpContext body makes POST /http-context answer
400 and leave the state unchanged. -/
theorem httpContext_install_rejected (jsonParse : String → Option Json)
    (urlOk : String → Bool) (st : EmulatorState) (body : Json)
    (hv : isValidHttpContext jsonParse urlOk body = false) :
    commandServerHandle jsonParse urlOk st false "POST" "/http-context" true (some body)
      = some (.failure 400 (some "Invalid HTTP context"), st) := by
  have h0 : commandServerHandle jsonParse urlOk st false "POST" "/http-context" true (some body)
      = some (postInstall (setHttpContext jsonParse urlOk st) st (some body)
          "Invalid HTTP context") := rfl
  rw [h0]
  unfold postInstall setHttpContext
  dsimp only
  rw [hv]
  rfl

theorem isValidHttpContext_false_of_bad_data_expected
    (jsonParse : String → Option Json) (urlOk : String → Bool) (body er d : Json)
    (hb : body.getField "expectedRequest" = some er)
    (hd : er.getField "data" = some d)
    (hnn : d ≠ .null) (hbad : checkJsonData jsonParse d = false) :
    isValidHttpContext jsonParse urlOk body = false := by
  obtain ⟨fields, rfl⟩ : ∃ fs, body = .obj fs := by
    cases body with
    | obj fs => exact ⟨fs, rfl⟩
    | null => simp [Json.getField] at hb
    | bool b => simp [Json.getField] at hb
    | num n => simp [Json.getField] at hb
    | str s => simp [Json.getField] at hb
    | arr es => simp [Json.getField] at hb
  obtain ⟨erFields, rfl⟩ : ∃ fs, er = .obj fs := by
    cases er with
    | obj fs => exact ⟨fs, rfl⟩
    | null => simp [Json.getField] at hd
    | bool b => simp [Json.getField] at hd
    | num n => simp [Json.getField] at hd
    | str s => simp [Json.getField] at hd
    | arr es => simp [Json.getField] at hd
  have hb' : lookupField fields "expectedRequest" = some (.obj erFields) := hb
  have hd' : lookupField erFields "data" = some d := hd
  have hexp : checkExpectedRequest jsonParse urlOk (.obj erFields) = false := by
    unfold checkExpectedRequest
    dsimp only
    rw [hd', maybeCheck_some_of_ne_null _ _ hnn, hbad]
    simp
  unfold isValidHttpContext
  dsimp only
  rw [hb']
  simp [reqCheck, hexp]

theorem isValidHttpContext_false_of_bad_data_required
    (jsonParse : String → Option Json) (urlOk : String → Bool) (body rr d : Json)
    (hb : body.getField "requiredResponse" = some rr)
    (hd : rr.getField "data" = some d)
    (hbad : checkJsonData jsonParse d = false) :
    isValidHttpContext jsonParse urlOk body = false := by
  obtain ⟨fields, rfl⟩ : ∃ fs, body = .obj fs := by
    cases body with
    | obj fs => exact ⟨fs, rfl⟩
    | null => simp [Json.getField] at hb
    | bool b => simp [Json.getField] at hb
    | num n => simp [Json.getField] at hb
    | str s => simp [Json.getField] at hb
    | arr es => simp [Json.getField] at hb
  obtain ⟨rrFields, rfl⟩ : ∃ fs, rr = .obj fs := by
    cases rr with
    | obj fs => exact ⟨fs, rfl⟩
    | null => simp [Json.getField] at hd
    | bool b => simp [Json.getField] at hd
    | num n => simp [Json.getField] at hd
    | str s => simp [Json.getField] at hd
    | arr es => simp [Json.getField] at hd
  have hb' : lookupField fields "requiredResponse" = some (.obj rrFields) := hb
  have hd' : lookupField rrFields "data" = some d := hd
  have hka : keysAmong rrFields ["statusCode", "errorMessage"] = false := by
    by_contra hc
    rw [Bool.not_eq_false] at hc
    have hcontains := keysAmong_lookup rrFields _ "data" d hc hd'
    simp at hcontains
  have hrr : checkRequiredResponse jsonParse (.obj rrFields) = false := by
    unfold checkRequiredResponse
    dsimp only
    rw [hd', hka]
    simp [reqCheck, hbad]
  unfold isValidHttpContext
  dsimp only
  rw [hb', maybeCheck_some_of_ne_null _ _ (fun h => Json.noConfusion h), hrr]
  simp

/-- C9 (amended): POST /http-context whose body has an `expectedRequest.data`
field that is present, non-null and not a string parsing as JSON to a
non-null value - or a `requiredResponse` carrying such a bad `data` field -
is rejected: the installation fails, the stored context is unchanged, and
the response is 400 "Invalid HTTP context".  (A literal JSON `null` data
field is accepted by the `Maybe JsonData` type.) -/
theorem httpContext_invalid_data_rejected
    (jsonParse : String → Option Json) (urlOk : String → Bool) (st : EmulatorState)
    (body er d : Json) :
    (body.getField "expectedRequest" = some er → er.getField "data" = some d →
      d ≠ .null → checkJsonData jsonParse d = false →
      commandServerHandle jsonParse urlOk st false "POST" "/http-context" true (some body)
        = some (.failure 400 (some "Invalid HTTP context"), st)) ∧
    (∀ rr, body.getField "requiredResponse" = some rr → rr.getField "data" = some d →
      checkJsonData jsonParse d = false →
      commandServerHandle jsonParse urlOk st false "POST" "/http-context" true (some body)
        = some (.failure 400 (some "Invalid HTTP context"), st)) := by
  constructor
  · intro hb hd hnn hbad
    exact httpContext_install_rejected jsonParse urlOk st body
      (isValidHttpContext_false_of_bad_data_expected jsonParse urlOk body er d hb hd hnn hbad)
  · intro rr hb hd hbad
    exact httpContext_install_rejected jsonParse urlOk st body
      (isValidHttpContext_false_of_bad_data_required jsonParse urlOk body rr d hb hd hbad)

def badHttpCtxBody : Json :=
  .obj [("expectedRequest", .obj [("httpMethod", .str "GET"),
    ("apiMethodPath", .str "messages"), ("data", .num 5)])]

/-- C9 witness: a numeric `expectedRequest.data` is rejected with 400
"Invalid HTTP context" and the state is unchanged. -/
theorem httpContext_invalid_data_rejected_witness :
    commandServerHandle jsonParseNone urlOkAll st0 false "POST" "/http-context" true
        (some badHttpCtxBody)
      = some (.failure 400 (some "Invalid HTTP context"), st0) :=
  (httpContext_invalid_data_rejected jsonParseNone urlOkAll st0 badHttpCtxBody
    (.obj [("httpMethod", .str "GET"), ("apiMethodPath", .str "messages"),
      ("data", .num 5)]) (.num 5)).1 rfl rfl (fun h => Json.noConfusion h) rfl

def httpCtxDataNull : Json :=
  .obj [("expectedRequest", .obj [("httpMethod", .str "GET"),
    ("apiMethodPath", .str "messages"), ("data", Json.null)])]

/-- C9 (counterexample to the claim as stated): a body whose
`expectedRequest.data` field is the JSON value `null` - which is not a
string parsing as JSON to a non-null value - is nevertheless accepted
(`Maybe JsonData` matches null): the installation succeeds with 200. -/
theorem httpContext_null_data_accepted :
    commandServerHandle jsonParseNone urlOkAll st0 false "POST" "/http-context" true
        (some httpCtxDataNull)
      = some (.success 200 none,
          { deviceCredentials := [], httpContext := some httpCtxDataNull,
            notifyContext := none }) := by
  rfl

/-- C10: a failed installation leaves the stored state unchanged for each of
the three installable states (credentials registry, HttpContext,
NotifyContext): the setter validates and throws before any assignment, so
the handler answers the endpoint's 400 error with the state it was given. -/
theorem failed_install_leaves_state
    (jsonParse : String → Option Json) (urlOk : String → Bool)
    (st : EmulatorState) (j : Json) :
    (isValidDeviceCredentials j = false →
      commandServerHandle jsonParse urlOk st false "POST" "/device-credentials" true (some j)
        = some (.failure 400 (some "Invalid device credentials"), st)) ∧
    (isValidHttpContext jsonParse urlOk j = false →
      commandServerHandle jsonParse urlOk st false "POST" "/http-context" true (some j)
        = some (.failure 400 (some "Invalid HTTP context"), st)) ∧
    (isValidNotifyContext jsonParse j = false →
      commandServerHandle jsonParse urlOk st false "POST" "/notify-context" true (some j)
        = some (.failure 400 (some "Invalid notification context"), st)) := by
  refine ⟨?_, ?_, ?_⟩
  · intro hv
    have h0 : commandServerHandle jsonParse urlOk st false "POST" "/device-credentials"
          true (some j)
        = some (postInstall (setCredentials st) st (some j) "Invalid device credentials") := rfl
    rw [h0]
    unfold postInstall setCredentials
    dsimp only
    rw [hv]
    rfl
  · exact httpContext_install_rejected jsonParse urlOk st j
  · intro hv
    have h0 : commandServerHandle jsonParse urlOk st false "POST" "/notify-context"
          true (some j)
        = some (postInstall (setNotifyContext jsonParse st) st (some j)
            "Invalid notification context") := rfl
    rw [h0]
    unfold postInstall setNotifyContext
    dsimp only
    rw [hv]
    rfl

def stC10 : EmulatorState :=
  { deviceCredentials := [("drc3XdxNtzoucpw9xiRp", Json.str "prev")],
    httpContext := some (.str "prevCtx"), notifyContext := some (.str "prevNotify") }

/-- C10 witness: a numeric body is invalid for all three installs; each
rejected install answers 400 and the previously installed values are still
what the state holds. -/
theorem failed_install_leaves_state_witness :
    (commandServerHandle jsonParseNone urlOkAll stC10 false "POST" "/device-credentials"
        true (some (.num 1))
      = some (.failure 400 (some "Invalid device credentials"), stC10)) ∧
    (commandServerHandle jsonParseNone urlOkAll stC10 false "POST" "/http-context"
        true (some (.num 1))
      = some (.failure 400 (some "Invalid HTTP context"), stC10)) ∧
    (commandServerHandle jsonParseNone urlOkAll stC10 false "POST" "/notify-context"
        true (some (.num 1))
      = some (.failure 400 (some "Invalid notification context"), stC10)) :=
  ⟨(failed_install_leaves_state jsonParseNone urlOkAll stC10 (.num 1)).1 rfl,
   (failed_install_leaves_state jsonParseNone urlOkAll stC10 (.num 1)).2.1 rfl,
   (failed_install_leaves_state jsonParseNone urlOkAll stC10 (.num 1)).2.2 rfl⟩

/-! ### WebSocket notification dispatch

`WSNotificationServer.autoDispatchMessages`, `_dispatchNotifyMessage` and
`WSNotificationChannel.sendMessage`.  Channels carry an `id` modelling JS
object identity (a `Set` holds distinct objects); timer firing is the
`setTimeout` callback made explicit as an event. -/

def assocLookup {α : Type} (m : List (String × α)) (k : String) : Option α :=
  match m with
  | [] => none
  | (k', v) :: rest => if k' = k then some v else assocLookup rest k

structure NotifyMsgInfo where
  data : String
  timeout : Option Int
deriving DecidableEq

/-- `NotifyContext`: deviceId → eventName → NotifyMsgInfo. -/
abbrev NotifyCtx := List (String × List (String × NotifyMsgInfo))

structure WSChannel where
  id : Nat
  deviceId : String
  eventName : String
  isOpen : Bool
  authenticated : Bool
deriving DecidableEq

structure WSServerState where
  notifyContext : Option NotifyCtx
  deviceEventNotifyChannels : List (String × List (String × List WSChannel))
  pendingDispatch : List (String × String × String × String)
deriving DecidableEq

/-- `` `${deviceId}_${eventName}` ``, the key of `dispatchNotifyMsgTimeouts`. -/
def mkDispatchKey (deviceId eventName : String) : String :=
  deviceId ++ "_" ++ eventName

/-- `WSNotificationChannel.sendMessage`: the frame goes out only when the
socket is OPEN and the channel is authenticated; otherwise the send is
silently skipped. -/
def sendMessage (ch : WSChannel) (data : String) : List (WSChannel × String) :=
  if ch.isOpen && ch.authenticated then [(ch, data)] else []

/-- The two-level index access of `_dispatchNotifyMessage`. -/
def channelsFor (idx : List (String × List (String × List WSChannel)))
    (deviceId eventName : String) : List WSChannel :=
  match assocLookup idx deviceId with
  | none => []
  | some eventNotifyChannels =>
    match assocLookup eventNotifyChannels eventName with
    | none => []
    | some chs => chs

def dispatchNotifyMessage (st : WSServerState) (deviceId eventName data : String) :
    List (WSChannel × String) :=
  (channelsFor st.deviceEventNotifyChannels deviceId eventName).flatMap
    (fun ch => sendMessage ch data)

/-- JS `timeout > 0` (false when `timeout` is undefined). -/
def jsGtZero : Option Int → Bool
  | some t => decide (0 < t)
  | none => false

/-- `autoDispatchMessages`, returning the new state and the frames sent
immediately (scheduling a timer sends nothing yet). -/
def autoDispatchMessages (st : WSServerState) (ch : WSChannel) :
    WSServerState × List (WSChannel × String) :=
  match st.notifyContext with
  | none => (st, [])
  | some ctx =>
    if ch.authenticated then
      match assocLookup ctx ch.deviceId with
      | none => (st, [])
      | some eventNotifyMessage =>
        match assocLookup eventNotifyMessage ch.eventName with
        | none => (st, [])
        | some notifyMsgInfo =>
          if jsGtZero notifyMsgInfo.timeout then
            if st.pendingDispatch.any
                (fun e => e.1 == mkDispatchKey ch.deviceId ch.eventName) then
              (st, [])
            else
              ({ st with pendingDispatch := st.pendingDispatch
                  ++ [(mkDispatchKey ch.deviceId ch.eventName,
                       ch.deviceId, ch.eventName, notifyMsgInfo.data)] }, [])
          else
            (st, dispatchNotifyMessage st ch.deviceId ch.eventName notifyMsgInfo.data)
    else (st, [])

/-- The `setTimeout` callback: delete the pending entry, then dispatch the
captured data. -/
def fireDispatchTimer (st : WSServerState) (key deviceId eventName data : String) :
    WSServerState × List (WSChannel × String) :=
  let st' := { st with
    pendingDispatch := st.pendingDispatch.eraseP (fun e => e.1 == key) }
  (st', dispatchNotifyMessage st' deviceId eventName data)

theorem sendMessage_eq_pos (c : WSChannel) (data : String)
    (hc : (c.isOpen && c.authenticated) = true) :
    sendMessage c data = [(c, data)] := by
  unfold sendMessage
  exact if_pos hc

theorem sendMessage_eq_neg (c : WSChannel) (data : String)
    (hc : (c.isOpen && c.authenticated) = false) :
    sendMessage c data = [] := by
  unfold sendMessage
  exact if_neg (by simp [hc])

theorem dispatch_messages_eq (chs : List WSChannel) (data : String) :
    chs.flatMap (fun ch => sendMessage ch data)
      = (chs.filter (fun ch => ch.isOpen && ch.authenticated)).map (fun ch => (ch, data)) := by
  induction chs with
  | nil => rfl
  | cons c cs ih =>
    simp only [List.flatMap_cons, List.filter_cons]
    cases hc : (c.isOpen && c.authenticated) with
    | true =>
      rw [sendMessage_eq_pos c data hc, ih]
      simp
    | false =>
      rw [sendMessage_eq_neg c data hc, ih]
      simp

theorem count_pair_map (l : List WSChannel) (c : WSChannel) (data : String) :
    ((l.map (fun ch => (ch, data))).count (c, data)) = l.count c := by
  induction l with
  | nil => rfl
  | cons x xs ih =>
    by_cases hx : x = c
    · simp [hx, List.count_cons, ih]
    · have hne : ((x, data) : WSChannel × String) ≠ (c, data) := by simp [hx]
      simp [List.count_cons, hx, hne, ih]

theorem autoDispatch_pending_shape (st : WSServerState) (ch : WSChannel) :
    (autoDispatchMessages st ch).1.pendingDispatch = st.pendingDispatch ∨
    ∃ key dev ev data,
      st.pendingDispatch.any (fun e => e.1 == key) = false ∧
      (autoDispatchMessages st ch).1.pendingDispatch
        = st.pendingDispatch ++ [(key, dev, ev, data)] := by
  unfold autoDispatchMessages
  cases hctx : st.notifyContext with
  | none => left; rfl
  | some ctx =>
    try dsimp only
    by_cases hauth : ch.authenticated = true
    · rw [hauth]
      try dsimp only
      cases hdev : assocLookup ctx ch.deviceId with
      | none => left; rfl
      | some evMap =>
        try dsimp only
        cases hev : assocLookup evMap ch.eventName with
        | none => left; rfl
        | some info =>
          try dsimp only
          by_cases htmo : jsGtZero info.timeout = true
          · rw [htmo]
            try dsimp only
            cases hany : st.pendingDispatch.any
                (fun e => e.1 == mkDispatchKey ch.deviceId ch.eventName) with
            | true => left; rfl
            | false =>
              right
              exact ⟨mkDispatchKey ch.deviceId ch.eventName, ch.deviceId, ch.eventName,
                info.data, hany, rfl⟩
          · rw [Bool.not_eq_true] at htmo
            rw [htmo]
            left
            rfl
    · rw [Bool.not_eq_true] at hauth
      rw [hauth]
      left
      rfl

theorem pending_key_not_mem_of_any_false (pending : List (String × String × String × String))
    (key : String) (h : pending.any (fun e => e.1 == key) = false) :
    key ∉ pending.map (fun e => e.1) := by
  intro hmem
  obtain ⟨e, hel, hek⟩ := List.mem_map.mp hmem
  have := List.any_eq_false.mp h e hel
  simp [hek] at this

/-- C8: the pending-dispatch map holds at most one timer per
`(deviceId, eventName)` pair.  Under an installed NotifyContext entry with
positive timeout, authenticating a channel while a dispatch for its pair is
already pending changes nothing; with none pending exactly one entry is
added and nothing is sent yet; key-uniqueness of the pending map is
preserved by every `autoDispatchMessages` call; when the timer fires, the
pending entry is removed and the installed data goes exactly once to every
indexed channel of the pair whose socket is open and which is
authenticated, the other channels being silently skipped. -/
theorem autoDispatch_at_most_one_timer :
    (∀ (st : WSServerState) (ch : WSChannel) (ctx : NotifyCtx)
        (evMap : List (String × NotifyMsgInfo)) (info : NotifyMsgInfo),
      st.notifyContext = some ctx → ch.authenticated = true →
      assocLookup ctx ch.deviceId = some evMap →
      assocLookup evMap ch.eventName = some info →
      jsGtZero info.timeout = true →
      ((st.pendingDispatch.any (fun e => e.1 == mkDispatchKey ch.deviceId ch.eventName) = true →
          autoDispatchMessages st ch = (st, [])) ∧
       (st.pendingDispatch.any (fun e => e.1 == mkDispatchKey ch.deviceId ch.eventName) = false →
          autoDispatchMessages st ch =
            ({ st with pendingDispatch := st.pendingDispatch
                ++ [(mkDispatchKey ch.deviceId ch.eventName,
                     ch.deviceId, ch.eventName, info.data)] }, [])))) ∧
    (∀ (st : WSServerState) (ch : WSChannel),
      (st.pendingDispatch.map (fun e => e.1)).Nodup →
      ((autoDispatchMessages st ch).1.pendingDispatch.map (fun e => e.1)).Nodup) ∧
    (∀ (st : WSServerState) (key dev ev data : String),
      (fireDispatchTimer st key dev ev data).1.pendingDispatch
          = st.pendingDispatch.eraseP (fun e => e.1 == key) ∧
      (fireDispatchTimer st key dev ev data).2
          = ((channelsFor st.deviceEventNotifyChannels dev ev).filter
              (fun c => c.isOpen && c.authenticated)).map (fun c => (c, data))) ∧
    (∀ (st : WSServerState) (key dev ev data : String) (c : WSChannel),
      (channelsFor st.deviceEventNotifyChannels dev ev).Nodup →
      c ∈ channelsFor st.deviceEventNotifyChannels dev ev →
      (((c.isOpen && c.authenticated) = true →
          (fireDispatchTimer st key dev ev data).2.count (c, data) = 1) ∧
       ((c.isOpen && c.authenticated) = false →
          (fireDispatchTimer st key dev ev data).2.count (c, data) = 0))) := by
  refine ⟨?_, ?_, ?_, ?_⟩
  · intro st ch ctx evMap info hctx hauth hdev hev htmo
    constructor
    · intro hany
      unfold autoDispatchMessages
      rw [hctx]
      try dsimp only
      rw [hauth, hdev]
      try dsimp only
      rw [hev]
      try dsimp only
      rw [htmo, hany]
      rfl
    · intro hany
      unfold autoDispatchMessages
      rw [hctx]
      try dsimp only
      rw [hauth, hdev]
      try dsimp only
      rw [hev]
      try dsimp only
      rw [htmo, hany]
      rfl
  · intro st ch hnd
    rcases autoDispatch_pending_shape st ch with h | ⟨key, dev, ev, data, hany, h⟩
    · rw [h]
      exact hnd
    · rw [h, List.map_append]
      simp only [List.map_cons, List.map_nil]
      rw [List.nodup_append]
      refine ⟨hnd, List.nodup_singleton _, ?_⟩
      intro a ha hb
      simp only [List.mem_singleton] at hb
      subst hb
      exact pending_key_not_mem_of_any_false st.pendingDispatch _ hany ha
  · intro st key dev ev data
    exact ⟨rfl, dispatch_messages_eq _ _⟩
  · intro st key dev ev data c hnd hmem
    have hmsgs : (fireDispatchTimer st key dev ev data).2
        = ((channelsFor st.deviceEventNotifyChannels dev ev).filter
            (fun c => c.isOpen && c.authenticated)).map (fun c => (c, data)) :=
      dispatch_messages_eq _ _
    rw [hmsgs, count_pair_map]
    constructor
    · intro helig
      rw [List.count_filter (p := fun ch : WSChannel => ch.isOpen && ch.authenticated)
        (a := c) helig]
      exact List.count_eq_one_of_mem hnd hmem
    · intro hnelig
      apply List.count_eq_zero.mpr
      intro hcmem
      have := List.of_mem_filter hcmem
      rw [hnelig] at this
      exact Bool.false_ne_true this

def chC8a : WSChannel :=
  { id := 1, deviceId := "drc3XdxNtzoucpw9xiRp", eventName := "new-msg-received",
    isOpen := true, authenticated := true }

def chC8b : WSChannel :=
  { id := 2, deviceId := "drc3XdxNtzoucpw9xiRp", eventName := "new-msg-received",
    isOpen := true, authenticated := true }

def chC8closed : WSChannel :=
  { id := 3, deviceId := "drc3XdxNtzoucpw9xiRp", eventName := "new-msg-received",
    isOpen := false, authenticated := true }

def ctxC8 : NotifyCtx :=
  [("drc3XdxNtzoucpw9xiRp", [("new-msg-received",
    { data := "payload", timeout := some 5 })])]

def idxC8 : List (String × List (String × List WSChannel)) :=
  [("drc3XdxNtzoucpw9xiRp", [("new-msg-received", [chC8a, chC8b, chC8closed])])]

def stC8 : WSServerState :=
  { notifyContext := some ctxC8, deviceEventNotifyChannels := idxC8,
    pendingDispatch := [] }

def keyC8 : String := mkDispatchKey "drc3XdxNtzoucpw9xiRp" "new-msg-received"

def entryC8 : String × String × String × String :=
  (keyC8, "drc3XdxNtzoucpw9xiRp", "new-msg-received", "payload")

def stC8pending : WSServerState :=
  { stC8 with pendingDispatch := [entryC8] }

/-- C8 witness: with no dispatch pending the first authentication schedules
exactly one timer; a second authentication for the same pair changes
nothing; firing delivers the data exactly once to each of the two open
authenticated channels and skips the closed one. -/
theorem autoDispatch_at_most_one_timer_witness :
    autoDispatchMessages stC8 chC8a = (stC8pending, []) ∧
    autoDispatchMessages stC8pending chC8b = (stC8pending, []) ∧
    (fireDispatchTimer stC8pending keyC8 "drc3XdxNtzoucpw9xiRp" "new-msg-received"
        "payload").1.pendingDispatch = [] ∧
    (fireDispatchTimer stC8pending keyC8 "drc3XdxNtzoucpw9xiRp" "new-msg-received"
        "payload").2.count (chC8a, "payload") = 1 ∧
    (fireDispatchTimer stC8pending keyC8 "drc3XdxNtzoucpw9xiRp" "new-msg-received"
        "payload").2.count (chC8closed, "payload") = 0 := by
  refine ⟨?_, ?_, ?_, ?_, ?_⟩
  · exact (autoDispatch_at_most_one_timer.1 stC8 chC8a ctxC8 _ _ rfl rfl rfl rfl rfl).2 rfl
  · exact (autoDispatch_at_most_one_timer.1 stC8pending chC8b ctxC8 _ _ rfl rfl rfl rfl rfl).1 rfl
  · exact (autoDispatch_at_most_one_timer.2.2.1 stC8pending keyC8 "drc3XdxNtzoucpw9xiRp"
      "new-msg-received" "payload").1
  · exact (autoDispatch_at_most_one_timer.2.2.2 stC8pending keyC8 "drc3XdxNtzoucpw9xiRp"
      "new-msg-received" "payload" chC8a (by decide) (by decide)).1 rfl
  · exact (autoDispatch_at_most_one_timer.2.2.2 stC8pending keyC8 "drc3XdxNtzoucpw9xiRp"
      "new-msg-received" "payload" chC8closed (by decide) (by decide)).2 rfl

end CatenisEmu
